import Mathlib

/-!
Verification development for the gemini-cli-mcp repository.

This file gives a shallow embedding of the streaming session manager
(`src/gemini-session-manager.ts`) and of the session-registry part of the
MCP dispatch layer (`src/mcp-server.ts`), and proves (or refutes) the
specified properties of `sendPrompt`, the per-event reducer, the
authentication-mode resolver, and the tool-call session lookup.

Modelling conventions:
* JavaScript strings become Lean `String`; truthiness of an optional string
  (absent or empty are falsy) is `strTruthy`.
* Machine numbers are `Nat`/`Int`.  `Date.now()` timestamps are `Nat`
  parameters.  The one floating-point computation in the source (the percent
  figure inside a progress message) is modelled with exact rationals; it is
  purely cosmetic and no property depends on it.
* The asynchronous event stream of one engine call is a finite `List` of
  events followed by a terminator describing how the stream ended (normal
  end, an `AbortError` from the timeout signal, or another thrown error).
* Thrown JS errors become an explicit `SendError` sum; `Except` carries the
  error/result alternative.
-/

namespace GeminiMcp

/-- JS truthiness of an optional string: `undefined` and `''` are falsy. -/
def strTruthy : Option String → Bool
  | none => false
  | some s => s != ""

/-- JS truthiness of an optional number: `undefined` and `0` are falsy. -/
def natTruthy : Option Nat → Bool
  | none => false
  | some n => n != 0

/-- A JS value appearing as a tool-call argument value.  The reducer only
distinguishes string values (inspecting their length) from everything else. -/
inductive JsVal where
  | str (s : String)
  | nonStr
deriving DecidableEq, Repr

/-- Model of `FinishReason` from `@google/genai`: the source only compares a
reason against `FinishReason.STOP`, so all other reasons are kept abstractly
as a tag used for display. -/
inductive FinishReasonM where
  | stop
  | other (tag : String)
deriving DecidableEq, Repr

/-- Display of a finish reason, standing in for JS string interpolation of the
enum value. -/
def FinishReasonM.describe : FinishReasonM → String
  | .stop => "STOP"
  | .other tag => tag

/-- Model of `CompressionStatus` from `@google/gemini-cli-core`: the three
values the source matches on, plus a catch-all for the rest. -/
inductive CompressionStatusM where
  | compressed
  | compressionFailedInflatedTokenCount
  | compressionFailedTokenCountError
  | otherStatus
deriving DecidableEq, Repr

/-- Payload of a `Finished` event: both token counts are optional and a zero
count is falsy in the source's `totalTokens && promptTokens` test. -/
structure UsageMetadata where
  promptTokenCount : Option Nat
  totalTokenCount : Option Nat
deriving DecidableEq, Repr

/-- Payload of a `ChatCompressed` event. -/
structure CompressionInfo where
  originalTokenCount : Int
  newTokenCount : Int
  compressionStatus : CompressionStatusM
deriving DecidableEq, Repr

/-- Payload of a `ToolCallResponse` event.  `errMsg = some m` models a present
`event.value.error` object with message `m` (the source tests the object's
truthiness, so presence is what matters); `contentLength` is tested with
`!== undefined`, so `some 0` passes that test. -/
structure ToolResponseVal where
  errMsg : Option String
  errorType : Option String
  outputFile : Option String
  contentLength : Option Nat
deriving DecidableEq, Repr

/-- The discriminated event union consumed by `sendPrompt`'s `switch`, one
constructor per `GeminiEventType` case of the source.  `error` is the
fatal-error variant (`GeminiEventType.Error`). -/
inductive GeminiEvent where
  | retry
  | content (value : Option String)
  | thought (subject : String) (description : Option String)
  | toolCallRequest (name : String) (args : List (String × JsVal))
  | toolCallResponse (value : ToolResponseVal)
  | toolCallConfirmation (name : String) (args : List (String × JsVal))
  | finished (reason : Option FinishReasonM) (usageMetadata : Option UsageMetadata)
  | error (status : Option String) (message : String)
  | chatCompressed (value : Option CompressionInfo)
  | loopDetected
  | maxSessionTurns
  | userCancelled
  | citation (value : Option String)
deriving DecidableEq, Repr

/-- Errors a `sendPrompt` call can terminate with.  `abortError` is the raw
exception named `AbortError` thrown by the engine iteration when the timeout
signal fires; the `catch` block of the source rewrites it into `timeout`.
`thrown` is any other engine-thrown exception, re-raised unchanged. -/
inductive SendError where
  | sessionNotActive
  | apiError (status : Option String) (message : String)
  | cancelled
  | timeout (elapsedMs : Nat)
  | abortError
  | thrown (message : String)
deriving DecidableEq, Repr

/-- The JS `Error.message` string carried by each modelled error, mirroring
the `new Error(...)` constructions of the source. -/
def SendError.jsMessage : SendError → String
  | .sessionNotActive => "Session not active"
  | .apiError (some status) msg => "API Error " ++ status ++ ": " ++ msg
  | .apiError none msg => msg
  | .cancelled => "User cancelled"
  | .timeout elapsed => "Stream timeout after " ++ toString elapsed ++ "ms"
  | .abortError => "AbortError"
  | .thrown m => m

/-- Outcome of feeding one event to the reducer: either continue with an
optional progress notification and the updated accumulated answer, or raise. -/
inductive StepOut where
  | next (progress : Option String) (acc : String)
  | raise (e : SendError)
deriving DecidableEq, Repr

/-- `Math.round` of an exact rational, as used for the compression-percent
figure (`Math.round(x)` is floor of `x + 1/2`).  The source computes this in
floating point; the value only ever appears inside a progress message. -/
def jsRound (q : ℚ) : ℤ := ⌊q + 1 / 2⌋

/-- The per-event reducer: the body of the `switch (event.type)` statement in
`sendPrompt` (src/gemini-session-manager.ts, lines 171-298), as a function of
the current accumulated answer and the event.  Each case produces the progress
notification the source passes to `onProgress` (if any) and the new
accumulated answer; the fatal-error and user-cancelled cases raise.  The
source additionally emits the notice `Cancelled by user` immediately before
the user-cancelled throw. -/
def stepEvent (acc : String) : GeminiEvent → StepOut
  | .retry => .next (some "Retrying...") acc
  | .content value =>
      let acc' := if strTruthy value then acc ++ value.getD "" else acc
      .next (some ("Responding... (" ++ toString acc'.length ++ " chars)")) acc'
  | .thought subject description =>
      if strTruthy description then
        .next (some ("Thinking: " ++ subject ++ " - "
          ++ (description.getD "").take 50 ++ "...")) acc
      else
        .next (some ("Thinking: "
          ++ (if subject != "" then subject else "Processing..."))) acc
  | .toolCallRequest name args =>
      match args with
      | [] => .next (some ("Using tool: " ++ name ++ "()")) acc
      | (firstArg, firstValue) :: _ =>
          match firstValue with
          | .str s =>
              if s.length < 50 then
                .next (some ("Using tool: " ++ name ++ "(" ++ firstArg
                  ++ ": \"" ++ s ++ "\")")) acc
              else
                .next (some ("Using tool: " ++ name ++ "("
                  ++ toString args.length ++ " args)")) acc
          | .nonStr =>
              .next (some ("Using tool: " ++ name ++ "("
                ++ toString args.length ++ " args)")) acc
  | .toolCallResponse v =>
      if v.errMsg.isSome then
        let errorMsg := v.errMsg.getD ""
        if strTruthy v.errorType then
          .next (some ("Tool failed (" ++ v.errorType.getD "" ++ "): "
            ++ errorMsg)) acc
        else
          .next (some ("Tool failed: " ++ errorMsg)) acc
      else if strTruthy v.outputFile then
        .next (some ("Tool completed: wrote to " ++ v.outputFile.getD "")) acc
      else if v.contentLength.isSome then
        .next (some ("Tool completed (" ++ toString (v.contentLength.getD 0)
          ++ " bytes)")) acc
      else
        .next (some "Tool completed") acc
  | .toolCallConfirmation name args =>
      if args.length > 0 then
        .next (some ("Confirming tool: " ++ name ++ " with "
          ++ toString args.length ++ " args")) acc
      else
        .next (some ("Confirming tool: " ++ name)) acc
  | .finished reason usageMetadata =>
      match usageMetadata with
      | some u =>
          if natTruthy u.totalTokenCount && natTruthy u.promptTokenCount then
            let promptTokens := u.promptTokenCount.getD 0
            let totalTokens := u.totalTokenCount.getD 0
            .next (some ("Finished (" ++ toString promptTokens ++ " prompt + "
              ++ toString ((totalTokens : Int) - (promptTokens : Int))
              ++ " response tokens)")) acc
          else
            .next none acc
      | none =>
          match reason with
          | some r =>
              if r != .stop then .next (some ("Finished: " ++ r.describe)) acc
              else .next (some "Finished") acc
          | none => .next (some "Finished") acc
  | .error status message => .raise (.apiError status message)
  | .chatCompressed value =>
      match value with
      | some info =>
          let saved : Int := info.originalTokenCount - info.newTokenCount
          let percent : Int :=
            jsRound ((saved : ℚ) * 100 / (info.originalTokenCount : ℚ))
          match info.compressionStatus with
          | .compressed =>
              .next (some ("Chat compressed: " ++ toString info.originalTokenCount
                ++ " → " ++ toString info.newTokenCount ++ " tokens ("
                ++ toString percent ++ "% saved)")) acc
          | .compressionFailedInflatedTokenCount =>
              .next (some "Chat compression failed: would increase tokens") acc
          | .compressionFailedTokenCountError =>
              .next (some "Chat compression failed: token count error") acc
          | .otherStatus => .next none acc
      | none => .next none acc
  | .loopDetected =>
      .next (some "Loop detected - stopping to prevent infinite cycle") acc
  | .maxSessionTurns =>
      .next (some "Max session turns reached - please start a new session") acc
  | .userCancelled => .raise .cancelled
  | .citation value =>
      if strTruthy value then
        let citationLines :=
          ((value.getD "").splitOn "\n").filter (fun line => line.trim != "")
        .next (some ("Found " ++ toString ((citationLines.length : Int) - 1)
          ++ " citations")) acc
      else
        .next none acc

/-- Whether an event is a content-delta event. -/
def GeminiEvent.isContent : GeminiEvent → Bool
  | .content _ => true
  | _ => false

/-- Whether an event makes the reducer raise (fatal-error or user-cancelled). -/
def GeminiEvent.raises : GeminiEvent → Bool
  | .error _ _ => true
  | .userCancelled => true
  | _ => false

/-- The content-delta payload of an event (empty for every other variant, and
for an absent delta value). -/
def GeminiEvent.delta : GeminiEvent → String
  | .content (some v) => v
  | _ => ""

/-- Concatenation of the content-delta payloads of a list of events, in
emission order. -/
def concatDeltas (events : List GeminiEvent) : String :=
  events.foldl (fun s e => s ++ e.delta) ""

/-- Whether a `StepOut` raised. -/
def StepOut.isRaise : StepOut → Bool
  | .raise _ => true
  | _ => false

/-- Folding the reducer over the events of one attempt's stream, starting
from the current accumulated answer (the `for await` loop body). -/
def runEvents : String → List GeminiEvent → Except SendError String
  | acc, [] => .ok acc
  | acc, e :: rest =>
      match stepEvent acc e with
      | .next _ acc' => runEvents acc' rest
      | .raise err => .error err

/-- How one engine stream terminates after its events are delivered. -/
inductive StreamEnd where
  | normal
  | abortError
  | thrown (message : String)
deriving DecidableEq, Repr

/-- One engine call's observable behaviour: the events it delivers, how the
stream ends, and how much wall-clock time the attempt consumes. -/
structure Attempt where
  events : List GeminiEvent
  ending : StreamEnd
  durationMs : Nat
deriving Repr

/-- Running one attempt: process the delivered events, then surface the
stream's terminator (a raised reducer error preempts the terminator, exactly
as a `throw` inside the `for await` body abandons the iteration). -/
def runAttempt (acc : String) (a : Attempt) : Except SendError String :=
  match runEvents acc a.events with
  | .error e => .error e
  | .ok acc' =>
      match a.ending with
      | .normal => .ok acc'
      | .abortError => .error .abortError
      | .thrown m => .error (.thrown m)

/-- The `AbortSignal.timeout(timeoutMs)` value: created from a creation
timestamp and the budget, so two signals are the same object only if created
at the same instant with the same budget.  It is never re-created per
attempt. -/
structure TimeoutSignal where
  createdAtMs : Nat
  timeoutMs : Nat
deriving DecidableEq, Repr

/-- One recorded `client.sendMessageStream([{text: message}], signal,
promptId, 100)` invocation. -/
structure EngineCall where
  message : String
  signal : TimeoutSignal
  promptId : String
  maxTurns : Nat
deriving DecidableEq, Repr

deriving instance DecidableEq for Except

/-- Observable outcome of a `sendPrompt` call: its return/throw, the engine
calls it made, and whether the pending-submission token registered by this
invocation was resolved before the call terminated (`true` when no token was
registered at all, i.e. on the not-active early throw). -/
structure SendResult where
  result : Except SendError String
  calls : List EngineCall
  released : Bool
deriving DecidableEq, Repr

/-- The retry bound of the source (`const maxContinuations = 3`). -/
def maxContinuations : Nat := 3

/-- The `catch` block of the attempt loop (lines 321-331): an exception named
`AbortError` is rewritten into the timeout error carrying
`Date.now() - startTime`; every other exception is re-raised unchanged. -/
def catchRewrite (startTime now durationMs : Nat) : SendError → SendError
  | SendError.abortError => SendError.timeout (now + durationMs - startTime)
  | e => e

/-- The engine call record the `attempt`-th iteration submits: the original
prompt on attempt `0`, the fixed continuation directive afterwards, always
under the same prompt identifier and the same timeout signal, with the
constant `100` turn bound. -/
def mkCall (origPrompt promptId : String) (signal : TimeoutSignal)
    (attempt : Nat) : EngineCall :=
  { message := if attempt == 0 then origPrompt else "Continue."
    signal := signal
    promptId := promptId
    maxTurns := 100 }

/-- The `for (let attempt = 0; attempt <= maxContinuations; attempt++)` loop
of `sendPrompt`.  `engine i` is the behaviour of the engine on the `i`-th
call of this invocation; `now` is the current wall-clock time; the prompt text
is replaced by the fixed directive on every attempt after the first.  The
pending token is resolved on the two success return paths only (the source
clears the pending state at lines 307-310 and 352-355); the catch path
re-raises without touching it, so `released := false` there. -/
def runLoop (engine : Nat → Attempt) (origPrompt promptId : String)
    (signal : TimeoutSignal) (startTime : Nat) :
    List Nat → String → Nat → List EngineCall → SendResult
  | [], acc, _now, calls =>
      { result := .ok acc, calls := calls, released := true }
  | attempt :: rest, acc, now, calls =>
      let a := engine attempt
      let call : EngineCall := mkCall origPrompt promptId signal attempt
      match runAttempt acc a with
      | .error e =>
          { result := .error (catchRewrite startTime now a.durationMs e)
            calls := calls ++ [call], released := false }
      | .ok acc' =>
          if acc'.length > 0 then
            { result := .ok acc', calls := calls ++ [call], released := true }
          else
            runLoop engine origPrompt promptId signal startTime rest acc'
              (now + a.durationMs) (calls ++ [call])

/-- The `sendPrompt` entry point: reject when not active, otherwise create the
timeout signal and the prompt identifier once (both from the call-start
timestamp `now`, modelling `Date.now()`), and run the attempt loop over
attempt indices `0..maxContinuations` with an empty accumulated answer. -/
def sendPrompt (isActive : Bool) (engine : Nat → Attempt) (prompt : String)
    (timeoutMs : Nat) (now : Nat) : SendResult :=
  if isActive then
    let signal : TimeoutSignal := { createdAtMs := now, timeoutMs := timeoutMs }
    let promptId := "prompt-" ++ toString now
    runLoop engine prompt promptId signal now
      (List.range (maxContinuations + 1)) "" now []
  else
    { result := .error .sessionNotActive, calls := [], released := true }

/-- An attempt whose events contain no raising event (no fatal-error, no
user-cancelled). -/
def attemptNoRaise (a : Attempt) : Bool :=
  a.events.all (fun e => !e.raises)

/-- An attempt that completes: no raising event and a normal stream end. -/
def attemptClean (a : Attempt) : Bool :=
  attemptNoRaise a && (match a.ending with | .normal => true | _ => false)

/-- An attempt whose events contain no content-delta event at all. -/
def attemptNoContent (a : Attempt) : Bool :=
  a.events.all (fun e => !e.isContent)

/-!
Admission protocol of concurrent `sendPrompt` callers on one session.

The source guards a session with a mutable pending promise
(`this._pending` / `this._pendingResolve`, lines 21-22): an arriving
submission executes

    if (this._pending) { await this._pending.catch(() => {}); }
    this._pending = new Promise((resolve) => { this._pendingResolve = resolve; });

and, on the success return paths, resolves the promise whose resolver is
currently stored in `this._pendingResolve`.

We model the JS single-threaded run-to-completion semantics of this protocol
directly: every caller runs synchronously until its next suspension point
(the single `await` of the pending promise, or awaiting the engine stream),
resolving a promise enqueues the continuations of its registered waiters in
registration order, and the microtask queue drains before any further stream
completion is delivered.  Each caller's stream consumption is abstracted to
one suspension (admission order is decided entirely before any stream event
is consumed, so this loses nothing for admission-order properties).
-/

/-- Where one caller of `sendPrompt` currently stands. -/
inductive CallerPhase where
  | idle
  | waiting (p : Nat)
  | running (myToken : Nat)
  | done
deriving DecidableEq, Repr

/-- Whether a caller is currently consuming its engine stream. -/
def CallerPhase.isRunning : CallerPhase → Bool
  | .running _ => true
  | _ => false

/-- Scheduler state: the session manager's two mutable fields (promises are
named by allocation order), each caller's phase, and the waiter registrations
of the not-yet-resolved promises, in registration order. -/
structure SchedState where
  pending : Option Nat
  pendingResolve : Option Nat
  nextPromiseId : Nat
  phases : List CallerPhase
  waiters : List (Nat × Nat)
deriving DecidableEq, Repr

/-- A caller executes line 138: it allocates a fresh pending promise, stores
both the promise and its resolver in the manager's fields (overwriting
whatever was there), and proceeds to the engine stream, where it suspends. -/
def acquire (s : SchedState) (c : Nat) : SchedState :=
  { s with
    pending := some s.nextPromiseId
    pendingResolve := some s.nextPromiseId
    nextPromiseId := s.nextPromiseId + 1
    phases := s.phases.set c (.running s.nextPromiseId) }

/-- A caller enters `sendPrompt` (lines 135-138): if a pending promise is
registered it awaits it — registering itself as a waiter and suspending,
with no re-check on wake-up — otherwise it acquires immediately. -/
def startCall (s : SchedState) (c : Nat) : SchedState :=
  match s.pending with
  | some p =>
      { s with
        phases := s.phases.set c (.waiting p)
        waiters := s.waiters ++ [(p, c)] }
  | none => acquire s c

/-- A running caller's stream ends and its attempt succeeds, so it executes
the success cleanup (lines 307-310): it reads whatever resolver is *currently*
stored in `this._pendingResolve`, clears both fields, and calls that resolver.
Resolving the promise wakes its registered waiters in registration order;
each woken continuation resumes at line 138 and acquires in turn (then
suspends at its own engine stream), before any other stream completion is
delivered — the microtask queue drains first. -/
def streamDone (s : SchedState) (c : Nat) : SchedState :=
  match s.phases.getD c .idle with
  | .running _ =>
      let r := s.pendingResolve
      let s1 := { s with
        pendingResolve := none
        pending := none
        phases := s.phases.set c .done }
      match r with
      | some rid =>
          let woken := (s1.waiters.filter (fun w => w.1 == rid)).map (fun w => w.2)
          let s2 := { s1 with waiters := s1.waiters.filter (fun w => w.1 != rid) }
          woken.foldl acquire s2
      | none => s1
  | _ => s

/-- One externally scheduled step: a new top-level call to `sendPrompt`, or
the completion of a running caller's engine stream. -/
inductive SchedOp where
  | call (c : Nat)
  | streamEnd (c : Nat)
deriving DecidableEq, Repr

/-- Deterministic execution of a schedule of external steps. -/
def runSched (s : SchedState) : List SchedOp → SchedState
  | [] => s
  | .call c :: rest => runSched (startCall s c) rest
  | .streamEnd c :: rest => runSched (streamDone s c) rest

/-- Initial state for `n` callers, none yet arrived, no pending promise. -/
def initSched (n : Nat) : SchedState :=
  { pending := none
    pendingResolve := none
    nextPromiseId := 0
    phases := List.replicate n .idle
    waiters := [] }

/-!
Authentication-mode resolution (`getAuthTypeFromEnv`, lines 38-49, and its
use in `start`, lines 86-93).
-/

/-- The `AuthType` values of `@google/gemini-cli-core` used by the source. -/
inductive AuthType where
  | loginWithGoogle
  | useVertexAI
  | useGemini
deriving DecidableEq, Repr

/-- The three environment variables `getAuthTypeFromEnv` reads. -/
structure AuthEnv where
  googleGenaiUseGca : Option String
  googleGenaiUseVertexai : Option String
  geminiApiKey : Option String
deriving DecidableEq, Repr

/-- `getAuthTypeFromEnv`: forced OAuth wins when `GOOGLE_GENAI_USE_GCA` is
exactly `'true'`; else Vertex when `GOOGLE_GENAI_USE_VERTEXAI` is exactly
`'true'`; else the API key when `GEMINI_API_KEY` is truthy (present and
non-empty); else no mode. -/
def getAuthTypeFromEnv (env : AuthEnv) : Option AuthType :=
  if env.googleGenaiUseGca == some "true" then some .loginWithGoogle
  else if env.googleGenaiUseVertexai == some "true" then some .useVertexAI
  else if strTruthy env.geminiApiKey then some .useGemini
  else none

/-- The mode `start` actually passes to `refreshAuth` (lines 86-93): the
resolved mode, or the default OAuth mode when none resolved. -/
def resolvedAuth (env : AuthEnv) : AuthType :=
  match getAuthTypeFromEnv env with
  | some t => t
  | none => .loginWithGoogle

/-!
Session registry of the MCP dispatch layer (`setupToolHandlers`,
src/mcp-server.ts, lines 167-199).
-/

/-- Validated tool-call arguments (`toolArgsSchema`). -/
structure ToolArgs where
  prompt : String
  projectPath : Option String
  sessionId : Option String
deriving DecidableEq, Repr

/-- Which role instruction `getRoleInstruction` selects for a tool name.  The
literal instruction text (a fixed multi-paragraph string per role) is kept
opaque: only the selection structure matters here. -/
inductive RoleInstruction where
  | planRole
  | analyzeRole
  | reviewRole
  | emptyRole
deriving DecidableEq, Repr

/-- The `switch (toolName)` of `getRoleInstruction` (lines 288-453). -/
def getRoleInstruction (toolName : String) : RoleInstruction :=
  if toolName == "gemini_plan" then .planRole
  else if toolName == "gemini_analyze" then .analyzeRole
  else if toolName == "gemini_review" then .reviewRole
  else .emptyRole

/-- A started session as the registry stores it: the construction arguments
the factory received (`projectPath`, `sessionId`) and the system instruction
`start` installed.  `projectRoot` and the instruction are immutable for the
session's lifetime (they are `readonly`/start-time state in the source). -/
structure SessionRec where
  projectRoot : String
  userSessionId : String
  instruction : RoleInstruction
deriving DecidableEq, Repr

/-- The composite session key (line 183): tool name and caller session id,
the latter defaulting to `'default'`. -/
def sessionKey (name : String) (args : ToolArgs) : String :=
  name ++ ":" ++ args.sessionId.getD "default"

/-- The get-or-create step of the tool-call handler (lines 178-199): compute
the key; reuse the mapped session when present, otherwise construct one from
`project_path || process.cwd()` and the caller session id, start it with the
role instruction, and insert it.  Returns the session used, the updated
registry, and whether a new session was started. -/
def getOrCreateSession (registry : List (String × SessionRec)) (name : String)
    (args : ToolArgs) (cwd : String) : SessionRec × List (String × SessionRec) × Bool :=
  let key := sessionKey name args
  match registry.lookup key with
  | some sessionManager => (sessionManager, registry, false)
  | none =>
      let projectPath := if strTruthy args.projectPath then args.projectPath.getD "" else cwd
      let created : SessionRec :=
        { projectRoot := projectPath
          userSessionId := args.sessionId.getD "default"
          instruction := getRoleInstruction name }
      (created, (key, created) :: registry, true)

/-! ### Concrete engine behaviours used as test inputs -/

/-- An engine whose first stream immediately emits a fatal-error event with
upstream status 503. -/
def engineFatal503 : Nat → Attempt := fun _ =>
  { events := [GeminiEvent.error (some "503") "Service Unavailable"]
    ending := .normal
    durationMs := 5 }

/-- An engine every one of whose streams completes normally with progress-only
events and no content delta. -/
def engineNoContent : Nat → Attempt := fun _ =>
  { events := [GeminiEvent.retry, GeminiEvent.finished none none]
    ending := .normal
    durationMs := 7 }

/-- An engine whose first stream emits the content deltas `A`, `B`, `C` with
other variants interleaved, then finishes normally. -/
def engineABC : Nat → Attempt := fun _ =>
  { events := [GeminiEvent.content (some "A"),
      GeminiEvent.thought "analysis" none,
      GeminiEvent.content (some "B"),
      GeminiEvent.content (some "C"),
      GeminiEvent.finished (some .stop)
        (some { promptTokenCount := some 10, totalTokenCount := some 25 })]
    ending := .normal
    durationMs := 3 }

/-- An engine whose first stream completes empty and whose second emits one
content delta `ok`. -/
def engineCont : Nat → Attempt := fun i =>
  if i == 0 then
    { events := [GeminiEvent.finished none none], ending := .normal, durationMs := 2 }
  else
    { events := [GeminiEvent.content (some "ok")], ending := .normal, durationMs := 2 }

/-- An engine whose first stream is cut short by the timeout signal after one
progress event and 42 milliseconds. -/
def engineTimedOut : Nat → Attempt := fun _ =>
  { events := [GeminiEvent.retry], ending := .abortError, durationMs := 42 }

/-- A session record used as a registry inhabitant in concrete tests. -/
def planSession : SessionRec :=
  { projectRoot := "/orig", userSessionId := "default", instruction := .planRole }

/-! ### Helper lemmas about the reducer and one attempt's stream -/

/-- The accumulated answer carried by a `StepOut`, when it continued. -/
def StepOut.accOf : StepOut → Option String
  | .next _ a => some a
  | .raise _ => none

lemma string_eq_empty_of_length (s : String) (h : s.length = 0) : s = "" := by
  cases s with
  | mk data =>
    simp only [String.length] at h
    simp only [List.length_eq_zero] at h
    simp [h]

lemma string_length_pos_of_ne (s : String) (h : s ≠ "") : 0 < s.length :=
  Nat.pos_of_ne_zero (fun h0 => h (string_eq_empty_of_length s h0))

lemma stepEvent_isRaise (acc : String) (e : GeminiEvent) :
    (stepEvent acc e).isRaise = e.raises := by
  cases e <;> simp only [stepEvent] <;> (repeat' split) <;> rfl

lemma stepEvent_accOf_of_not_content (acc : String) (e : GeminiEvent)
    (hc : e.isContent = false) (h : e.raises = false) :
    (stepEvent acc e).accOf = some acc := by
  cases e <;>
    try (simp only [stepEvent] <;> (repeat' split) <;> rfl)
  case content value => simp [GeminiEvent.isContent] at hc
  case error status message => simp [GeminiEvent.raises] at h
  case userCancelled => simp [GeminiEvent.raises] at h

lemma stepEvent_accOf_content (acc : String) (value : Option String) :
    (stepEvent acc (.content value)).accOf
      = some (acc ++ (GeminiEvent.content value).delta) := by
  cases value with
  | none => simp [stepEvent, strTruthy, GeminiEvent.delta, StepOut.accOf,
      String.append_empty]
  | some v =>
      by_cases hv : v = ""
      · subst hv
        simp [stepEvent, strTruthy, GeminiEvent.delta, StepOut.accOf,
          String.append_empty]
      · simp [stepEvent, strTruthy, GeminiEvent.delta, StepOut.accOf, hv]

lemma delta_of_not_content (e : GeminiEvent) (hc : e.isContent = false) :
    e.delta = "" := by
  cases e <;> first | rfl | simp [GeminiEvent.isContent] at hc

lemma isContent_eq (e : GeminiEvent) (h : e.isContent = true) :
    ∃ v, e = .content v := by
  cases e <;> simp [GeminiEvent.isContent] at h <;> exact ⟨_, rfl⟩

lemma stepEvent_of_not_raises (acc : String) (e : GeminiEvent)
    (h : e.raises = false) :
    ∃ p, stepEvent acc e = .next p (acc ++ e.delta) := by
  have hr := stepEvent_isRaise acc e
  rw [h] at hr
  have hx : (stepEvent acc e).accOf = some (acc ++ e.delta) := by
    cases hic : e.isContent with
    | true =>
        obtain ⟨v, rfl⟩ := isContent_eq e hic
        exact stepEvent_accOf_content acc v
    | false =>
        rw [delta_of_not_content e hic, String.append_empty]
        exact stepEvent_accOf_of_not_content acc e hic h
  cases hs : stepEvent acc e with
  | next p a =>
      rw [hs] at hx
      simp only [StepOut.accOf, Option.some.injEq] at hx
      exact ⟨p, by rw [hx]⟩
  | raise err => rw [hs] at hr; simp [StepOut.isRaise] at hr

lemma foldl_delta (evs : List GeminiEvent) :
    ∀ acc : String,
      evs.foldl (fun s e => s ++ e.delta) acc = acc ++ concatDeltas evs := by
  induction evs with
  | nil => intro acc; simp [concatDeltas, String.append_empty]
  | cons e rest ih =>
      intro acc
      have h1 : concatDeltas (e :: rest) = e.delta ++ concatDeltas rest := by
        simp only [concatDeltas, List.foldl_cons]
        rw [show ("" : String) ++ e.delta = e.delta from String.empty_append _]
        exact ih e.delta
      simp only [List.foldl_cons]
      rw [ih (acc ++ e.delta), h1, String.append_assoc]

lemma runEvents_ok (evs : List GeminiEvent) :
    ∀ acc : String, (∀ e ∈ evs, e.raises = false) →
      runEvents acc evs = .ok (acc ++ concatDeltas evs) := by
  induction evs with
  | nil => intro acc _; simp [runEvents, concatDeltas, String.append_empty]
  | cons e rest ih =>
      intro acc hall
      obtain ⟨p, hp⟩ :=
        stepEvent_of_not_raises acc e (hall e (List.mem_cons_self e rest))
      simp only [runEvents, hp]
      rw [ih (acc ++ e.delta) (fun x hx => hall x (List.mem_cons_of_mem e hx))]
      have h1 : concatDeltas (e :: rest) = e.delta ++ concatDeltas rest := by
        simp only [concatDeltas, List.foldl_cons]
        rw [show ("" : String) ++ e.delta = e.delta from String.empty_append _]
        exact foldl_delta rest e.delta
      rw [h1, String.append_assoc]

lemma runEvents_append (l1 l2 : List GeminiEvent) :
    ∀ acc : String,
      runEvents acc (l1 ++ l2) =
        (match runEvents acc l1 with
          | .ok a => runEvents a l2
          | .error err => .error err) := by
  induction l1 with
  | nil => intro acc; simp [runEvents]
  | cons e rest ih =>
      intro acc
      simp only [List.cons_append, runEvents]
      cases stepEvent acc e with
      | next p a => exact ih a
      | raise err => rfl

lemma runAttempt_clean (a : Attempt) (h : attemptClean a = true) :
    runAttempt "" a = .ok (concatDeltas a.events) := by
  simp only [attemptClean, Bool.and_eq_true] at h
  obtain ⟨h1, h2⟩ := h
  simp only [attemptNoRaise, List.all_eq_true] at h1
  have hr : ∀ e ∈ a.events, e.raises = false := by
    intro e he
    have := h1 e he
    simpa using this
  simp only [runAttempt, runEvents_ok a.events "" hr]
  rw [show ("" : String) ++ concatDeltas a.events = concatDeltas a.events from
    String.empty_append _]
  cases hend : a.ending with
  | normal => rfl
  | abortError => rw [hend] at h2; simp at h2
  | thrown m => rw [hend] at h2; simp at h2

lemma concatDeltas_noContent (evs : List GeminiEvent)
    (h : ∀ e ∈ evs, e.isContent = false) : concatDeltas evs = "" := by
  induction evs with
  | nil => rfl
  | cons e rest ih =>
      have hd : e.delta = "" := by
        have := h e (List.mem_cons_self e rest)
        cases e <;> simp [GeminiEvent.isContent] at this ⊢ <;> rfl
      have h1 : concatDeltas (e :: rest) = e.delta ++ concatDeltas rest := by
        simp only [concatDeltas, List.foldl_cons]
        rw [show ("" : String) ++ e.delta = e.delta from String.empty_append _]
        exact foldl_delta rest e.delta
      rw [h1, hd, ih (fun x hx => h x (List.mem_cons_of_mem e hx)),
        String.append_empty]

/-! ### Lemmas about the attempt loop -/

lemma runLoop_skip {engine : Nat → Attempt} {o p : String} {sig : TimeoutSignal}
    {st i : Nat} {rest : List Nat} {now : Nat} {calls : List EngineCall}
    (h1 : attemptClean (engine i) = true)
    (h2 : concatDeltas (engine i).events = "") :
    runLoop engine o p sig st (i :: rest) "" now calls =
      runLoop engine o p sig st rest "" (now + (engine i).durationMs)
        (calls ++ [mkCall o p sig i]) := by
  have hatt := runAttempt_clean (engine i) h1
  rw [h2] at hatt
  simp only [runLoop, hatt]
  rw [if_neg (by simp)]

lemma runLoop_return {engine : Nat → Attempt} {o p : String} {sig : TimeoutSignal}
    {st i : Nat} {rest : List Nat} {now : Nat} {calls : List EngineCall}
    (h1 : attemptClean (engine i) = true)
    (h2 : concatDeltas (engine i).events ≠ "") :
    runLoop engine o p sig st (i :: rest) "" now calls =
      { result := .ok (concatDeltas (engine i).events)
        calls := calls ++ [mkCall o p sig i]
        released := true } := by
  have hatt := runAttempt_clean (engine i) h1
  have hpos := string_length_pos_of_ne _ h2
  simp only [runLoop, hatt]
  rw [if_pos hpos]

lemma runLoop_error {engine : Nat → Attempt} {o p : String} {sig : TimeoutSignal}
    {st i : Nat} {rest : List Nat} {now : Nat} {calls : List EngineCall}
    {err : SendError} (h : runAttempt "" (engine i) = .error err) :
    runLoop engine o p sig st (i :: rest) "" now calls =
      { result := .error (catchRewrite st now (engine i).durationMs err)
        calls := calls ++ [mkCall o p sig i]
        released := false } := by
  simp only [runLoop, h]

lemma runLoop_skipPrefix {engine : Nat → Attempt} {o p : String}
    {sig : TimeoutSignal} {st : Nat} (pfx : List Nat)
    (h : ∀ i ∈ pfx, attemptClean (engine i) = true ∧ concatDeltas (engine i).events = "") :
    ∀ (is2 : List Nat) (now : Nat) (calls : List EngineCall), ∃ now2,
      runLoop engine o p sig st (pfx ++ is2) "" now calls =
        runLoop engine o p sig st is2 "" now2 (calls ++ pfx.map (mkCall o p sig)) := by
  induction pfx with
  | nil => intro is2 now calls; exact ⟨now, by simp⟩
  | cons i t ih =>
      intro is2 now calls
      have hi := h i (List.mem_cons_self i t)
      obtain ⟨now2, h2⟩ := ih (fun x hx => h x (List.mem_cons_of_mem i hx)) is2
        (now + (engine i).durationMs) (calls ++ [mkCall o p sig i])
      refine ⟨now2, ?_⟩
      rw [List.cons_append, runLoop_skip hi.1 hi.2, h2]
      simp

lemma runLoop_skipAll {engine : Nat → Attempt} {o p : String}
    {sig : TimeoutSignal} {st : Nat} (is1 : List Nat)
    (h : ∀ i ∈ is1, attemptClean (engine i) = true ∧ concatDeltas (engine i).events = "") :
    ∀ (now : Nat) (calls : List EngineCall),
      runLoop engine o p sig st is1 "" now calls =
        { result := .ok "", calls := calls ++ is1.map (mkCall o p sig),
          released := true } := by
  induction is1 with
  | nil => intro now calls; simp [runLoop]
  | cons i t ih =>
      intro now calls
      have hi := h i (List.mem_cons_self i t)
      rw [runLoop_skip hi.1 hi.2,
        ih (fun x hx => h x (List.mem_cons_of_mem i hx)) (now + (engine i).durationMs)
          (calls ++ [mkCall o p sig i])]
      simp

lemma runLoop_calls_shape {engine : Nat → Attempt} {o p : String}
    {sig : TimeoutSignal} {st : Nat} (is1 : List Nat) :
    ∀ (acc : String) (now : Nat) (calls : List EngineCall), ∃ n,
      n ≤ is1.length ∧ (is1 ≠ [] → 1 ≤ n) ∧
      (runLoop engine o p sig st is1 acc now calls).calls
        = calls ++ (is1.take n).map (mkCall o p sig) := by
  induction is1 with
  | nil =>
      intro acc now calls
      exact ⟨0, Nat.le_refl 0, fun hne => absurd rfl hne, by simp [runLoop]⟩
  | cons i t ih =>
      intro acc now calls
      cases hatt : runAttempt acc (engine i) with
      | error e =>
          refine ⟨1, by simp, fun _ => Nat.le_refl 1, ?_⟩
          simp only [runLoop, hatt]
          simp
      | ok acc' =>
          by_cases hlen : acc'.length > 0
          · refine ⟨1, by simp, fun _ => Nat.le_refl 1, ?_⟩
            simp only [runLoop, hatt]
            rw [if_pos hlen]
            simp
          · obtain ⟨n, hn1, _, hn3⟩ :=
              ih acc' (now + (engine i).durationMs) (calls ++ [mkCall o p sig i])
            refine ⟨n + 1, by simpa using Nat.succ_le_succ hn1,
              fun _ => Nat.succ_le_succ (Nat.zero_le n), ?_⟩
            simp only [runLoop, hatt]
            rw [if_neg hlen, hn3]
            simp

lemma range_split (k : Nat) (hk : k ≤ maxContinuations) :
    ∃ rest, List.range (maxContinuations + 1) = List.range k ++ k :: rest := by
  have hk3 : k ≤ 3 := hk
  interval_cases k
  · exact ⟨[1, 2, 3], rfl⟩
  · exact ⟨[2, 3], rfl⟩
  · exact ⟨[3], rfl⟩
  · exact ⟨[], rfl⟩

lemma sendPrompt_active (engine : Nat → Attempt) (prompt : String)
    (timeoutMs now : Nat) :
    sendPrompt true engine prompt timeoutMs now =
      runLoop engine prompt ("prompt-" ++ toString now)
        { createdAtMs := now, timeoutMs := timeoutMs } now
        (List.range (maxContinuations + 1)) "" now [] := rfl

lemma foldl_concat_empty (f : Nat → String) (l : List Nat)
    (h : ∀ i ∈ l, f i = "") :
    l.foldl (fun s i => s ++ f i) "" = "" := by
  induction l with
  | nil => rfl
  | cons i t ih =>
      simp only [List.foldl_cons]
      rw [h i (List.mem_cons_self i t), String.append_empty]
      exact ih (fun x hx => h x (List.mem_cons_of_mem i hx))

/-! ### Claim theorems -/

/-- C1: the claim states that the pending-submission token registered by a
`sendPrompt` invocation is released on every termination path, including a
thrown error.  The code releases it only on the two success return paths: on
the fatal-error path the call terminates with the raised `UpstreamError` while
the token is still unsettled (`released = false`), so a subsequently queued
submission would wait forever. -/
theorem sendPrompt_fatal_error_leaves_token_unsettled :
    (sendPrompt true engineFatal503 "hello" 6000000 0).result
        = .error (.apiError (some "503") "Service Unavailable") ∧
    (sendPrompt true engineFatal503 "hello" 6000000 0).released = false := by
  constructor <;> rfl

/-- C2: the claim states that no two submissions on one session are ever
processed concurrently and that admission is strictly FIFO.  Under the JS
microtask semantics of the pending-promise gate this fails with three
concurrent callers: callers 1 and 2 queue behind caller 0's token, and when
that token is resolved both woken waiters proceed past the single non-looping
`await`, register their own tokens (the second overwriting the first), and
consume their engine streams concurrently — the final state has two callers
simultaneously in the running phase. -/
theorem queued_submissions_run_concurrently :
    (runSched (initSched 3)
        [.call 0, .call 1, .call 2, .streamEnd 0]).phases
      = [.done, .running 1, .running 2] ∧
    (((runSched (initSched 3)
        [.call 0, .call 1, .call 2, .streamEnd 0]).phases.filter
          CallerPhase.isRunning).length = 2) := by
  constructor <;> rfl

/-- C3: if every attempt of a `sendPrompt` call on an active session completes
normally with zero content-delta events (and no fatal-error, user-cancelled or
timeout), the call makes exactly 4 engine stream calls — the original plus 3
continuations — and returns the empty string without raising. -/
theorem sendPrompt_all_empty_returns_empty_after_four_calls
    (engine : Nat → Attempt) (prompt : String) (timeoutMs now : Nat)
    (h : ∀ i, i ≤ maxContinuations →
        attemptClean (engine i) = true ∧ attemptNoContent (engine i) = true) :
    (sendPrompt true engine prompt timeoutMs now).result = .ok "" ∧
    (sendPrompt true engine prompt timeoutMs now).calls.length = 4 := by
  have hall : ∀ i ∈ List.range (maxContinuations + 1),
      attemptClean (engine i) = true ∧ concatDeltas (engine i).events = "" := by
    intro i hi
    have hi' : i ≤ maxContinuations := Nat.lt_succ_iff.mp (List.mem_range.mp hi)
    refine ⟨(h i hi').1, concatDeltas_noContent _ ?_⟩
    intro e he
    have h2 := (h i hi').2
    simp only [attemptNoContent, List.all_eq_true] at h2
    simpa using h2 e he
  rw [sendPrompt_active,
    runLoop_skipAll (List.range (maxContinuations + 1)) hall now []]
  constructor
  · rfl
  · simp [maxContinuations]

/-- C3 witness: an engine all of whose streams complete normally with only
progress events yields the empty answer after exactly four engine calls. -/
theorem sendPrompt_all_empty_witness :
    (sendPrompt true engineNoContent "hi" 6000000 0).result = .ok "" ∧
    (sendPrompt true engineNoContent "hi" 6000000 0).calls.length = 4 :=
  sendPrompt_all_empty_returns_empty_after_four_calls engineNoContent "hi"
    6000000 0 (fun i _ => ⟨rfl, rfl⟩)

/-- C4: if the attempts before attempt `k` complete normally with an empty
delta concatenation and attempt `k` completes normally with a non-empty one
(no fatal-error, user-cancelled or timeout anywhere), `sendPrompt` returns
exactly the concatenation of the content-delta payloads in emission order,
accumulated across all attempts of the call, and makes `k + 1` engine
calls — regardless of which other event variants are interleaved. -/
theorem sendPrompt_returns_delta_concatenation
    (engine : Nat → Attempt) (prompt : String) (timeoutMs now k : Nat)
    (hk : k ≤ maxContinuations)
    (hprev : ∀ i, i < k →
        attemptClean (engine i) = true ∧ concatDeltas (engine i).events = "")
    (hcleank : attemptClean (engine k) = true)
    (hne : concatDeltas (engine k).events ≠ "") :
    (sendPrompt true engine prompt timeoutMs now).result =
      .ok ((List.range (k + 1)).foldl
        (fun s i => s ++ concatDeltas (engine i).events) "") ∧
    (sendPrompt true engine prompt timeoutMs now).calls.length = k + 1 := by
  obtain ⟨rest, hsplit⟩ := range_split k hk
  have hpre : ∀ i ∈ List.range k,
      attemptClean (engine i) = true ∧ concatDeltas (engine i).events = "" :=
    fun i hi => hprev i (List.mem_range.mp hi)
  obtain ⟨now2, hloop⟩ := runLoop_skipPrefix (List.range k) hpre (k :: rest) now []
  have hfold : (List.range (k + 1)).foldl
      (fun s i => s ++ concatDeltas (engine i).events) ""
        = concatDeltas (engine k).events := by
    rw [List.range_succ, List.foldl_append,
      foldl_concat_empty _ (List.range k)
        (fun i hi => (hprev i (List.mem_range.mp hi)).2)]
    simp only [List.foldl_cons, List.foldl_nil]
    exact String.empty_append _
  rw [sendPrompt_active, hsplit, hloop, runLoop_return hcleank hne, hfold]
  constructor
  · rfl
  · simp

/-- C4 witness: a first attempt emitting deltas `A`, `B`, `C` with other
variants interleaved returns `ABC` from a single engine call. -/
theorem sendPrompt_returns_delta_concatenation_witness :
    (sendPrompt true engineABC "Analyze @src/" 6000000 0).result = .ok "ABC" ∧
    (sendPrompt true engineABC "Analyze @src/" 6000000 0).calls.length = 1 :=
  sendPrompt_returns_delta_concatenation engineABC "Analyze @src/" 6000000 0 0
    (by decide) (fun i hi => absurd hi (Nat.not_lt_zero i)) rfl
    (by decide)

/-- C5: a fatal-error event reached at any position of any attempt's stream
(here: attempt `k`, after a prefix of non-raising events, with the earlier
attempts completing normally and empty) aborts the whole call: the result is
the raised upstream error carrying the status and message of the event, the
accumulated answer is discarded, and no further engine calls are made. -/
theorem sendPrompt_fatal_error_aborts_immediately
    (engine : Nat → Attempt) (prompt : String) (timeoutMs now k : Nat)
    (pre post : List GeminiEvent) (status : Option String) (msg : String)
    (hk : k ≤ maxContinuations)
    (hprev : ∀ i, i < k →
        attemptClean (engine i) = true ∧ concatDeltas (engine i).events = "")
    (hev : (engine k).events = pre ++ GeminiEvent.error status msg :: post)
    (hpre : ∀ e ∈ pre, e.raises = false) :
    (sendPrompt true engine prompt timeoutMs now).result
        = .error (.apiError status msg) ∧
    (sendPrompt true engine prompt timeoutMs now).calls.length = k + 1 := by
  obtain ⟨rest, hsplit⟩ := range_split k hk
  have hpfx : ∀ i ∈ List.range k,
      attemptClean (engine i) = true ∧ concatDeltas (engine i).events = "" :=
    fun i hi => hprev i (List.mem_range.mp hi)
  obtain ⟨now2, hloop⟩ := runLoop_skipPrefix (List.range k) hpfx (k :: rest) now []
  have hrun : runEvents "" (engine k).events = .error (.apiError status msg) := by
    rw [hev, runEvents_append pre _ "", runEvents_ok pre "" hpre]
    simp [runEvents, stepEvent]
  have hatt : runAttempt "" (engine k) = .error (.apiError status msg) := by
    simp only [runAttempt, hrun]
  rw [sendPrompt_active, hsplit, hloop, runLoop_error hatt]
  constructor
  · rfl
  · simp

/-- C5 witness: a fatal-error event with status 503 as the first event of the
first attempt makes the call raise the upstream error after one engine call. -/
theorem sendPrompt_fatal_error_aborts_witness :
    (sendPrompt true engineFatal503 "hi" 6000000 0).result
        = .error (.apiError (some "503") "Service Unavailable") ∧
    (sendPrompt true engineFatal503 "hi" 6000000 0).calls.length = 1 :=
  sendPrompt_fatal_error_aborts_immediately engineFatal503 "hi" 6000000 0 0
    [] [] (some "503") "Service Unavailable" (by decide)
    (fun i hi => absurd hi (Nat.not_lt_zero i)) rfl
    (fun e he => absurd he (List.not_mem_nil e))

/-- C6: the timeout signal is created once at the start of the call from the
call-start timestamp and the caller-supplied budget, and every engine call of
the invocation — original and continuations alike — receives that same
signal (so the budget is shared, not reset per attempt); when the signal
aborts an attempt the call raises a `Timeout` error, which is distinct from
every upstream `apiError`. -/
theorem sendPrompt_shared_timeout_budget
    (engine : Nat → Attempt) (prompt : String) (timeoutMs now k : Nat)
    (hk : k ≤ maxContinuations)
    (hprev : ∀ i, i < k →
        attemptClean (engine i) = true ∧ concatDeltas (engine i).events = "")
    (hnr : attemptNoRaise (engine k) = true)
    (hend : (engine k).ending = .abortError) :
    (∀ c ∈ (sendPrompt true engine prompt timeoutMs now).calls,
        c.signal = { createdAtMs := now, timeoutMs := timeoutMs }) ∧
    (∃ elapsed, (sendPrompt true engine prompt timeoutMs now).result
        = .error (.timeout elapsed) ∧
      ∀ s m, SendError.timeout elapsed ≠ SendError.apiError s m) := by
  obtain ⟨rest, hsplit⟩ := range_split k hk
  have hpfx : ∀ i ∈ List.range k,
      attemptClean (engine i) = true ∧ concatDeltas (engine i).events = "" :=
    fun i hi => hprev i (List.mem_range.mp hi)
  obtain ⟨now2, hloop⟩ := runLoop_skipPrefix (List.range k) hpfx (k :: rest) now []
  have hr : ∀ e ∈ (engine k).events, e.raises = false := by
    intro e he
    simp only [attemptNoRaise, List.all_eq_true] at hnr
    simpa using hnr e he
  have hatt : runAttempt "" (engine k) = .error .abortError := by
    simp only [runAttempt, runEvents_ok _ "" hr, hend]
  rw [sendPrompt_active, hsplit, hloop, runLoop_error hatt]
  constructor
  · intro c hc
    simp only [List.nil_append, List.mem_append, List.mem_map,
      List.mem_singleton] at hc
    rcases hc with ⟨j, _, rfl⟩ | rfl <;> rfl
  · refine ⟨now2 + (engine k).durationMs - now, ?_, ?_⟩
    · rfl
    · intro s m hcontra
      exact SendError.noConfusion hcontra

/-- C6 witness: a first attempt aborted by the timeout signal yields a
`timeout` result, and the single call it made carried the signal created at
call start. -/
theorem sendPrompt_shared_timeout_budget_witness :
    (∀ c ∈ (sendPrompt true engineTimedOut "p" 10 100).calls,
        c.signal = { createdAtMs := 100, timeoutMs := 10 }) ∧
    (∃ elapsed, (sendPrompt true engineTimedOut "p" 10 100).result
        = .error (.timeout elapsed) ∧
      ∀ s m, SendError.timeout elapsed ≠ SendError.apiError s m) :=
  sendPrompt_shared_timeout_budget engineTimedOut "p" 10 100 0 (by decide)
    (fun i hi => absurd hi (Nat.not_lt_zero i)) rfl rfl

/-- C7: every engine call of one `sendPrompt` invocation is submitted under
the one prompt identifier minted at call start, and every call after the
first submits the fixed continuation directive in place of the caller's
prompt text. -/
theorem sendPrompt_constant_prompt_id
    (engine : Nat → Attempt) (prompt : String) (timeoutMs now i : Nat)
    (c : EngineCall)
    (h : (sendPrompt true engine prompt timeoutMs now).calls[i]? = some c) :
    c.promptId = "prompt-" ++ toString now ∧
    c.message = (if i = 0 then prompt else "Continue.") := by
  obtain ⟨n, hn1, _, hshape⟩ :=
    @runLoop_calls_shape engine prompt ("prompt-" ++ toString now)
      { createdAtMs := now, timeoutMs := timeoutMs } now
      (List.range (maxContinuations + 1)) "" now []
  rw [sendPrompt_active, hshape, List.nil_append, List.getElem?_map] at h
  cases htake : (List.take n (List.range (maxContinuations + 1)))[i]? with
  | none => rw [htake] at h; simp at h
  | some j =>
      rw [htake] at h
      simp only [Option.map_some', Option.some.injEq] at h
      have hji : j = i := by
        have hlen : i < (List.take n (List.range (maxContinuations + 1))).length := by
          by_contra hge
          rw [List.getElem?_eq_none (Nat.le_of_not_lt hge)] at htake
          exact Option.noConfusion htake
        have hin : i < n := Nat.lt_of_lt_of_le hlen
          (by simpa using List.length_take_le n (List.range (maxContinuations + 1)))
        have hi4 : i < maxContinuations + 1 := by
          have := List.length_take n (List.range (maxContinuations + 1))
          rw [this] at hlen
          exact Nat.lt_of_lt_of_le hlen (by simp [Nat.min_le_right])
        rw [List.getElem?_take_of_lt hin, List.getElem?_range hi4] at htake
        exact (Option.some.injEq _ _ ▸ htake.symm)
  -- derive the call fields from the recorded call shape
      subst hji
      rw [← h]
      constructor
      · rfl
      · by_cases hj : j = 0
        · subst hj; simp [mkCall]
        · simp [mkCall, hj]

/-- C7 witness: in a call whose first attempt is empty and whose second
returns content, the second engine call carries the continuation directive
under the prompt identifier minted at call start. -/
theorem sendPrompt_constant_prompt_id_witness :
    ({ message := "Continue.", signal := { createdAtMs := 100, timeoutMs := 6000000 },
        promptId := "prompt-100", maxTurns := 100 } : EngineCall).promptId
      = "prompt-" ++ toString 100 ∧
    ({ message := "Continue.", signal := { createdAtMs := 100, timeoutMs := 6000000 },
        promptId := "prompt-100", maxTurns := 100 } : EngineCall).message
      = (if 1 = 0 then "p" else "Continue.") :=
  sendPrompt_constant_prompt_id engineCont "p" 6000000 100 1
    { message := "Continue.", signal := { createdAtMs := 100, timeoutMs := 6000000 },
      promptId := "prompt-100", maxTurns := 100 } (by rfl)

/-- C8: the per-event reducer raises exactly on the fatal-error and
user-cancelled variants, and for every other variant it continues; moreover a
non-content event contributes no content fragment — the accumulated answer it
passes on is unchanged. -/
theorem reducer_raises_only_fatal_or_cancelled (acc : String) (e : GeminiEvent) :
    (stepEvent acc e).isRaise = e.raises ∧
    (e.isContent = false → e.raises = false →
      ∃ p, stepEvent acc e = .next p acc) := by
  refine ⟨stepEvent_isRaise acc e, fun hc h => ?_⟩
  obtain ⟨p, hp⟩ := stepEvent_of_not_raises acc e h
  rw [delta_of_not_content e hc, String.append_empty] at hp
  exact ⟨p, hp⟩

/-- C8 witness: the retry variant continues without touching the accumulated
answer. -/
theorem reducer_raises_only_fatal_or_cancelled_witness :
    (stepEvent "a" GeminiEvent.retry).isRaise = (GeminiEvent.retry).raises ∧
    (∃ p, stepEvent "a" GeminiEvent.retry = .next p "a") :=
  ⟨(reducer_raises_only_fatal_or_cancelled "a" .retry).1,
    (reducer_raises_only_fatal_or_cancelled "a" .retry).2 rfl rfl⟩

/-- C9: the authentication mode is resolved with precedence
forced-OAuth > Vertex > API-key > default: the `GOOGLE_GENAI_USE_GCA` flag
wins over everything, else the `GOOGLE_GENAI_USE_VERTEXAI` flag wins over the
API key, else a (non-empty) `GEMINI_API_KEY` selects the API-key mode, and
with none set the default OAuth mode is used. -/
theorem getAuthTypeFromEnv_precedence (env : AuthEnv) :
    (env.googleGenaiUseGca = some "true" →
      resolvedAuth env = .loginWithGoogle) ∧
    (env.googleGenaiUseGca ≠ some "true" →
      env.googleGenaiUseVertexai = some "true" →
      resolvedAuth env = .useVertexAI) ∧
    (env.googleGenaiUseGca ≠ some "true" →
      env.googleGenaiUseVertexai ≠ some "true" →
      strTruthy env.geminiApiKey = true → resolvedAuth env = .useGemini) ∧
    (env.googleGenaiUseGca ≠ some "true" →
      env.googleGenaiUseVertexai ≠ some "true" →
      strTruthy env.geminiApiKey = false →
      resolvedAuth env = .loginWithGoogle) := by
  refine ⟨fun h1 => ?_, fun h1 h2 => ?_, fun h1 h2 h3 => ?_, fun h1 h2 h3 => ?_⟩
  · simp [resolvedAuth, getAuthTypeFromEnv, h1]
  · simp [resolvedAuth, getAuthTypeFromEnv, h1, h2]
  · simp [resolvedAuth, getAuthTypeFromEnv, h1, h2, h3]
  · simp [resolvedAuth, getAuthTypeFromEnv, h1, h2, h3]

/-- C9 witness: all four precedence cases at concrete environments. -/
theorem getAuthTypeFromEnv_precedence_witness :
    resolvedAuth ⟨some "true", some "true", some "key"⟩ = .loginWithGoogle ∧
    resolvedAuth ⟨some "false", some "true", some "key"⟩ = .useVertexAI ∧
    resolvedAuth ⟨none, none, some "key"⟩ = .useGemini ∧
    resolvedAuth ⟨none, none, some ""⟩ = .loginWithGoogle :=
  ⟨(getAuthTypeFromEnv_precedence _).1 rfl,
    (getAuthTypeFromEnv_precedence _).2.1 (by decide) rfl,
    (getAuthTypeFromEnv_precedence _).2.2.1 (by decide) (by decide) rfl,
    (getAuthTypeFromEnv_precedence _).2.2.2 (by decide) (by decide) rfl⟩

/-- C10: when the composite session key (tool name + caller session id)
already maps to a session, the tool-call handler reuses that session exactly
as stored — whatever `project_path` the invocation supplies — and starts no
new session: the registry is unchanged and the existing session keeps the
project root and instruction it was created with. -/
theorem existing_session_ignores_project_path
    (registry : List (String × SessionRec)) (name : String) (args : ToolArgs)
    (cwd : String) (s : SessionRec)
    (h : registry.lookup (sessionKey name args) = some s) :
    ∀ p', getOrCreateSession registry name
        { prompt := args.prompt, projectPath := p', sessionId := args.sessionId }
        cwd
      = (s, registry, false) := by
  intro p'
  have hkey : sessionKey name
      { prompt := args.prompt, projectPath := p', sessionId := args.sessionId }
        = sessionKey name args := rfl
  simp only [getOrCreateSession, hkey, h]

/-- C10 witness: a registry holding a `gemini_plan` session created with
project root `/orig` serves a call supplying a different `project_path`
unchanged, with no new session. -/
theorem existing_session_ignores_project_path_witness :
    getOrCreateSession [("gemini_plan:default", planSession)] "gemini_plan"
        { prompt := "do it", projectPath := some "/other", sessionId := none }
        "/cwd"
      = (planSession, [("gemini_plan:default", planSession)], false) :=
  existing_session_ignores_project_path [("gemini_plan:default", planSession)]
    "gemini_plan" { prompt := "do it", projectPath := some "/orig", sessionId := none }
    "/cwd" planSession (by rfl) (some "/other")

end GeminiMcp
